import Mathlib

/-!
Verification of the multi-provider LLM orchestration layer.

The JavaScript source is shallowly embedded: promise-settlement values are
modelled explicitly, JS strings are Lean `String`s (character-indexed), JS
numbers used as counters or sizes are `Nat`, sampling temperatures are `Rat`,
and values that may be absent or of the wrong dynamic type are `Option`s,
with `none` standing for "missing or not of the expected runtime type".

Asynchronous settlement is modelled by oracles: a retried task is a function
from attempt index to the settled `withTimeout` outcome of that attempt, and
a raced promise is `Option (Nat × PromiseResult)` — `none` for a promise
that never settles, `some (t, r)` for one settling at logical time `t` with
result `r`.
-/

namespace ManyAnswers

/-- Settled outcome shape produced by `withTimeout` in `src/providers.js`:
`{ok: true, value}` or `{ok: false, error}`.  The `value` is the adapter's
returned text and the `error` is the stringified error message. -/
inductive Outcome where
  | ok (value : String)
  | err (error : String)
deriving DecidableEq, Repr

/-- Mirrors reading the `.ok` field of an outcome object. -/
def Outcome.isOk : Outcome → Bool
  | .ok _ => true
  | .err _ => false

/-- Result of a raced promise: it settles with a value (`then` branch) or
with an error (`catch` branch). -/
inductive PromiseResult where
  | value (v : String)
  | error (e : String)
deriving DecidableEq, Repr

/-- The timeout error message built in `withTimeout`:
`new Error(label + " timed out after " + timeoutMs + "ms")` (template literal
in the source). -/
def timeoutMessage (label : String) (timeoutMs : Nat) : String :=
  label ++ " timed out after " ++ toString timeoutMs ++ "ms"

/-- Embedding of `withTimeout(promise, timeoutMs, label)` from
`src/providers.js`.  The promise is modelled by its settlement schedule:
`none` if it never settles, `some (t, r)` if it settles at logical time `t`
with result `r`.  The timer fires at time `timeoutMs`; whichever settles
strictly earlier wins the race (the JS promise resolves exactly once, which
is intrinsic here because this is a total function).  A settlement at or
after the deadline is discarded: the timer's resolution already happened and
the later `resolve` call is a no-op. -/
def withTimeout (promise : Option (Nat × PromiseResult)) (timeoutMs : Nat)
    (label : String) : Outcome :=
  match promise with
  | none => .err (timeoutMessage label timeoutMs)
  | some (t, r) =>
    if t < timeoutMs then
      match r with
      | .value v => .ok v
      | .error e => .err e
    else .err (timeoutMessage label timeoutMs)

/-- Inner loop of `runWithRetries` in `src/server.js`:

```
async function attempt(n) {
  const result = await withTimeout(taskFactory(), perAttemptTimeoutMs, label);
  if (result.ok) return result;
  if (n + 1 >= attempts) return result;
  return attempt(n + 1);
}
```

`results n` is the settled `withTimeout` outcome of attempt `n` (each call of
the task factory is a fresh operation, so attempts are independent).  The
extra `fuel` argument makes the recursion structural; `runWithRetries` below
instantiates it with `attempts`, which is enough because every recursive call
strictly increases `n` while `n + 1 < attempts` holds.  In addition to the
final outcome the embedding returns the number of attempts that were made
(`n + 1` at the attempt where the loop stopped), which the JS function does
not return but which the retry policy claims are about. -/
def attemptLoop (results : Nat → Outcome) (attempts : Nat) :
    Nat → Nat → Outcome × Nat
  | 0, n => (results n, n + 1)
  | fuel + 1, n =>
    let result := results n
    if result.isOk then (result, n + 1)
    else if n + 1 ≥ attempts then (result, n + 1)
    else attemptLoop results attempts fuel (n + 1)

/-- Embedding of `runWithRetries(label, taskFactory, attempts, tmo)` from
`src/server.js`: run `attempt(0)`.  The `label` and per-attempt timeout only
feed `withTimeout`, which is already folded into the per-attempt outcome
oracle `results`. -/
def runWithRetries (results : Nat → Outcome) (attempts : Nat) :
    Outcome × Nat :=
  attemptLoop results attempts attempts 0

/-- One prior conversational turn as received from the client.  The JS code
only ever inspects `m?.role` by comparing it with specific string constants
and `m?.content` by a `typeof ... === "string"` check, so a field that is
missing or not a string is modelled as `none`. -/
structure Turn where
  role : Option String
  content : Option String
deriving DecidableEq, Repr

/-- Role mapping of `askOpenAI` (`src/providers.js`):
`m?.role === "assistant" ? "assistant" : m?.role === "system" ? "system" :
"user"`. -/
def openaiRole (r : Option String) : String :=
  if r = some "assistant" then "assistant"
  else if r = some "system" then "system"
  else "user"

/-- Role mapping of `askClaude`:
`m?.role === "assistant" ? "assistant" : "user"`. -/
def claudeRole (r : Option String) : String :=
  if r = some "assistant" then "assistant" else "user"

/-- Role mapping of `askGemini`:
`m?.role === "assistant" ? "model" : "user"`. -/
def geminiRole (r : Option String) : String :=
  if r = some "assistant" then "model" else "user"

/-- One element of an OpenAI/Anthropic message list: `{role, content}`. -/
structure ChatMsg where
  role : String
  content : String
deriving DecidableEq, Repr

/-- One element of the Gemini `contents` list: `{role, parts: [{text}]}`;
the parts are represented by their `text` fields. -/
structure GeminiContent where
  role : String
  parts : List String
deriving DecidableEq, Repr

/-- History loop shared by `askOpenAI` (and the streaming handler): turns
whose content is not a string or is the empty string (falsy) are skipped;
the rest are pushed with the mapped role. -/
def openaiHistoryMsgs (history : List Turn) : List ChatMsg :=
  history.filterMap fun m =>
    match m.content with
    | some c => if c = "" then none else some ⟨openaiRole m.role, c⟩
    | none => none

/-- History loop of `askClaude`. -/
def claudeHistoryMsgs (history : List Turn) : List ChatMsg :=
  history.filterMap fun m =>
    match m.content with
    | some c => if c = "" then none else some ⟨claudeRole m.role, c⟩
    | none => none

/-- History loop of `askGemini`: kept turns become
`{role, parts: [{text}]}`. -/
def geminiHistoryContents (history : List Turn) : List GeminiContent :=
  history.filterMap fun m =>
    match m.content with
    | some c => if c = "" then none else some ⟨geminiRole m.role, [c]⟩
    | none => none

/-- The optional leading system message of `askOpenAI`: pushed only when
`system` is truthy (present and non-empty). -/
def openaiSystemMsgs (system : Option String) : List ChatMsg :=
  match system with
  | some s => if s = "" then [] else [⟨"system", s⟩]
  | none => []

/-- Full message list built by `askOpenAI` before the API branch:
optional system message, filtered history, then the user prompt. -/
def openaiMessages (system : Option String) (history : List Turn)
    (prompt : String) : List ChatMsg :=
  openaiSystemMsgs system ++ openaiHistoryMsgs history ++
    [⟨"user", prompt⟩]

/-- Full message list built by `askClaude` (the system instruction goes in
a separate `system` field, not the message list). -/
def claudeMessages (history : List Turn) (prompt : String) : List ChatMsg :=
  claudeHistoryMsgs history ++ [⟨"user", prompt⟩]

/-- Full `contents` list built by `askGemini`. -/
def geminiContents (history : List Turn) (prompt : String) :
    List GeminiContent :=
  geminiHistoryContents history ++ [⟨"user", [prompt]⟩]

/-- Embedding of `pickHist(providerKey)` from the `/api/ask` handler in
`src/server.js`.  The request's `histories` bag is a JS object; a key whose
value passes `Array.isArray` is modelled as `some list`, anything else
(missing key, missing bag, non-array value) as `none`.  `modelId` is `some`
exactly when the request carried a string there, and `history` is the legacy
shared transcript (`some` when it is an array, `none` when absent).  The
source returns, in order of precedence: `histories[providerKey]` when it is
an array; `histories[modelId]` when `modelId` is a string and that entry is
an array; the concatenation of whichever of `histories.model1`, `.model2`,
`.model3` are arrays (in that fixed order) when at least one is; and
finally `history ?? []`. -/
def pickHist (histories : String → Option (List Turn))
    (modelId : Option String) (history : Option (List Turn))
    (providerKey : String) : List Turn :=
  match histories providerKey with
  | some l => l
  | none =>
    match (match modelId with
           | some mid => histories mid
           | none => none) with
    | some l => l
    | none =>
      if (histories "model1").isSome || (histories "model2").isSome ||
          (histories "model3").isSome then
        (histories "model1").getD [] ++ (histories "model2").getD [] ++
          (histories "model3").getD []
      else history.getD []

/-- JS `Array.prototype.join(sep)`: empty array gives `""`, otherwise the
elements with `sep` between consecutive ones. -/
def jsJoin (sep : String) : List String → String
  | [] => ""
  | [x] => x
  | x :: y :: xs => x ++ sep ++ jsJoin sep (y :: xs)

/-- JS `s.slice(0, n)`: the first `n` characters of `s` (all of `s` when it
is shorter). -/
def jsSlice0 (s : String) (n : Nat) : String :=
  String.mk (s.data.take n)

/-- One request attachment.  `name`/`type`/`content` are `none` when the
field is missing or not a string; `size` is the numeric size field. -/
structure Attachment where
  name : Option String
  type : Option String
  size : Nat
  content : Option String

/-- Per-file inline cap from `buildPromptWithAttachments`:
`const MAX_PER = 100_000`. -/
def MAX_PER : Nat := 100000

/-- The defaulted display name of attachment `a` at index `i`:
`String(a?.name || "file_" + (i+1))` (a missing, non-string or empty name
falls back to the numbered default). -/
def attName (i : Nat) (a : Attachment) : String :=
  match a.name with
  | some n => if n = "" then "file_" ++ toString (i + 1) else n
  | none => "file_" ++ toString (i + 1)

/-- The defaulted content type: `String(a?.type || "text/plain")`. -/
def attType (a : Attachment) : String :=
  match a.type with
  | some t => if t = "" then "text/plain" else t
  | none => "text/plain"

/-- The inlined content: sliced to the first `MAX_PER` characters when it
is longer, kept whole otherwise. -/
def attContent (a : Attachment) : String :=
  if (a.content.getD "").length > MAX_PER then
    jsSlice0 (a.content.getD "") MAX_PER
  else (a.content.getD "")

/-- The note appended to the header line, `" [truncated]"` exactly when
the content was over the cap and `""` otherwise. -/
def attNote (a : Attachment) : String :=
  if (a.content.getD "").length > MAX_PER then " [truncated]" else ""

/-- The header of an attachment's line: index, name, type and size, i.e.
everything of the template before the note, colon and content. -/
def attHead (i : Nat) (a : Attachment) : String :=
  "\n[" ++ toString (i + 1) ++ "] " ++ attName i a ++ " (" ++ attType a ++
    ", " ++ toString a.size ++ " bytes)"

/-- The line pushed for attachment `a` at index `i` inside
`buildPromptWithAttachments`, the template
`\n[i+1] name (type, size bytes)note:\ncontent`. -/
def attLine (i : Nat) (a : Attachment) : String :=
  attHead i a ++ attNote a ++ ":\n" ++ attContent a

/-- Embedding of `buildPromptWithAttachments(p, atts)` from the `/api/ask`
handler: with no attachment array (or an empty one) the prompt is returned
unchanged; otherwise the lines `"Attachments:"`, one `attLine` per
attachment, `"\n---\n"` and the prompt are joined with `"\n"`. -/
def buildPromptWithAttachments (p : String)
    (atts : Option (List Attachment)) : String :=
  match atts with
  | none => p
  | some [] => p
  | some l =>
    jsJoin "\n"
      (["Attachments:"] ++ (l.enum.map fun ia => attLine ia.1 ia.2) ++
        ["\n---\n", p])

/-- The three providers of the aggregate endpoint. -/
inductive Prov where
  | openai
  | claude
  | gemini
deriving DecidableEq, Repr

/-- The lowercase key a provider uses in request/response objects. -/
def provKey : Prov → String
  | .openai => "openai"
  | .claude => "claude"
  | .gemini => "gemini"

/-- The error recorded when a requested provider has no credential:
`"Missing OPENAI_API_KEY"` / `"Missing ANTHROPIC_API_KEY"` /
`"Missing GEMINI_API_KEY or GOOGLE_API_KEY"` (the Gemini credential is
satisfied by either of two environment variables). -/
def missingKeyError : Prov → String
  | .openai => "Missing OPENAI_API_KEY"
  | .claude => "Missing ANTHROPIC_API_KEY"
  | .gemini => "Missing GEMINI_API_KEY or GOOGLE_API_KEY"

/-- Default model identifiers from `DEFAULTS` in `src/providers.js`. -/
def defaultModel : Prov → String
  | .openai => "gpt-5-mini-2025-08-07"
  | .claude => "claude-3-5-sonnet-latest"
  | .gemini => "gemini-1.5-flash"

/-- The `/api/ask` request body, restricted to the fields the orchestration
logic reads.  `providers` records `providers?.[k] === true` per provider;
`histories` is the bag consumed by `pickHist`. -/
structure AskRequest where
  prompt : Option String
  system : Option String
  providers : Prov → Bool
  models : Prov → Option String
  temperature : Option Rat
  maxTokens : Option Nat
  timeoutMs : Option Nat
  history : Option (List Turn)
  histories : String → Option (List Turn)
  modelId : Option String
  attachments : Option (List Attachment)

/-- The uniform per-provider result object assembled by the handler. -/
structure ProviderOutcome where
  provider : String
  model : String
  ok : Bool
  text : Option String
  error : Option String
  latencyMs : Nat
deriving DecidableEq, Repr

/-- What the handler produces for a valid prompt: the aggregate keyed by
provider (`none` for a provider that is not a key of the response object)
and, for the no-network-call property, which providers had a retried
adapter job submitted at all. -/
structure AskResponse where
  results : Prov → Option ProviderOutcome
  jobs : Prov → Bool

/-- Whitespace characters stripped by JS `String.prototype.trim` (the
ASCII subset, which is what the requests at issue contain). -/
def isJsWhitespace (c : Char) : Bool :=
  c = ' ' || c = '\t' || c = '\n' || c = '\r' || c = '\x0b' || c = '\x0c'

/-- JS `s.trim()`: leading and trailing whitespace removed. -/
def jsTrim (s : String) : String :=
  String.mk (((s.data.dropWhile isJsWhitespace).reverse.dropWhile
    isJsWhitespace).reverse)

/-- Prompt validation of the handler:
`!prompt || typeof prompt !== "string" || !prompt.trim()` rejects a
missing/non-string prompt and a prompt that is empty or whitespace-only. -/
def validPrompt : Option String → Bool
  | some s => !(jsTrim s = "")
  | none => false

/-- `config.system`: the request's system instruction is kept only when it
is a string with non-blank trim, mirroring
`(typeof system === "string" && system.trim().length > 0) ? system :
undefined`. -/
def normSystem : Option String → Option String
  | some s => if jsTrim s = "" then none else some s
  | none => none

/-- The augmented prompt computed once per request, before any provider
job is built: `buildPromptWithAttachments(prompt, attachments)`. -/
def effectivePrompt (req : AskRequest) : String :=
  buildPromptWithAttachments (req.prompt.getD "") req.attachments

/-- The argument object the handler passes to one provider's adapter
(`askOpenAI`/`askClaude`/`askGemini`) inside the retry factory, with
`useModelConfig` disabled so the on-disk config merge is inert: the shared
augmented prompt, the normalized system instruction, the per-provider model
(request override or default), the request-or-default sampling values, and
the transcript resolved by `pickHist` for that provider's key. -/
structure AdapterArgs where
  prompt : String
  system : Option String
  model : String
  temperature : Rat
  maxTokens : Nat
  history : List Turn

/-- Builds the adapter arguments for provider `p`, following the handler's
`config`/`eff` wiring on the `useModelConfig !== true` path. -/
def builtRequest (req : AskRequest) (p : Prov) : AdapterArgs where
  prompt := effectivePrompt req
  system := normSystem req.system
  model := (req.models p).getD (defaultModel p)
  temperature := req.temperature.getD (2 / 10)
  maxTokens := req.maxTokens.getD 1024
  history := pickHist req.histories req.modelId req.history (provKey p)

/-- The `ProviderOutcome` recorded in the `.then` continuation of one
provider's retried job, given the settled retry outcome `r` and the
measured wall-clock latency. -/
def settledOutcome (req : AskRequest) (p : Prov) (r : Outcome)
    (lat : Nat) : ProviderOutcome where
  provider := provKey p
  model := (req.models p).getD (defaultModel p)
  ok := r.isOk
  text := match r with | .ok v => some v | .err _ => none
  error := match r with | .ok _ => none | .err e => some e
  latencyMs := lat

/-- Embedding of the `/api/ask` handler from `src/server.js`.  `hasKey p`
models whether provider `p`'s credential environment variable is set;
`attemptResults p` is the per-attempt `withTimeout` outcome oracle of `p`'s
retried job and `latency p` its measured wall-clock latency.  A missing
prompt yields `none` (the 400 response).  Otherwise, per provider: a
requested but credential-less provider gets a synthesized failure outcome
with the credential error and zero latency, and no job; an enabled provider
(requested and credentialed) gets the settled result of
`runWithRetries(label, factory, 3, tmo)`; an unrequested provider is not a
key of the response.  `Promise.all(jobs)` is modelled by the response
already containing every settled outcome. -/
def apiAsk (req : AskRequest) (hasKey : Prov → Bool)
    (attemptResults : Prov → Nat → Outcome) (latency : Prov → Nat) :
    Option AskResponse :=
  if validPrompt req.prompt then
    some
      { results := fun p =>
          if !hasKey p && req.providers p then
            some
              { provider := provKey p
                model := (req.models p).getD (defaultModel p)
                ok := false
                text := none
                error := some (missingKeyError p)
                latencyMs := 0 }
          else if req.providers p && hasKey p then
            some (settledOutcome req p
              (runWithRetries (attemptResults p) 3).1 (latency p))
          else none
        jobs := fun p => req.providers p && hasKey p }
  else none

/-- Substring containment on character lists, the semantics of testing a
literal (flag-free) JS regular expression against a string. -/
def containsSub (pat : List Char) : List Char → Bool
  | [] => pat.isPrefixOf []
  | c :: t => pat.isPrefixOf (c :: t) || containsSub pat t

/-- Case-insensitive regex literal test, e.g. `/gpt-5/i.test(model)`:
containment after lowercasing both sides. -/
def jsTestCI (pat s : String) : Bool :=
  containsSub (pat.data.map Char.toLower) (s.data.map Char.toLower)

/-- Case-sensitive regex literal test, e.g. `/-2025-/.test(model)`. -/
def jsTest (pat s : String) : Bool :=
  containsSub pat.data s.data

/-- The newer-model-family detector of `askOpenAI`:
`/gpt-5/i.test(model) || /-2025-/.test(model)`. -/
def isGpt5 (model : String) : Bool :=
  jsTestCI "gpt-5" model || jsTest "-2025-" model

/-- The deep-research detector of `askOpenAI`:
`/deep-research/i.test(model || "")`. -/
def usesResponsesApi (model : String) : Bool :=
  jsTestCI "deep-research" model

/-- The chat-completions payload assembled by `askOpenAI`; an `Option`
field is `none` when the source leaves the key off the payload object. -/
structure OpenAIPayload where
  model : String
  messages : List ChatMsg
  temperature : Option Rat
  max_tokens : Option Nat
  max_completion_tokens : Option Nat
deriving DecidableEq, Repr

/-- Payload construction of `askOpenAI` on the chat-completions path:
temperature only when the model is not in the newer family and a number was
given; the output-length limit as `max_completion_tokens := mct ?? mt` for
the newer family and as `max_tokens := mt ?? mct` otherwise. -/
def openaiChatPayload (model : String) (messages : List ChatMsg)
    (temperature : Option Rat) (maxTokens maxCompletionTokens : Option Nat) :
    OpenAIPayload :=
  let isG := isGpt5 model
  { model := model
    messages := messages
    temperature := if !isG && temperature.isSome then temperature else none
    max_completion_tokens :=
      if isG && (maxCompletionTokens <|> maxTokens).isSome then
        maxCompletionTokens <|> maxTokens
      else none
    max_tokens :=
      if !isG && (maxTokens <|> maxCompletionTokens).isSome then
        maxTokens <|> maxCompletionTokens
      else none }

/-- The planner meta-instruction block prepended by `askOpenAI` in the
deep-research mode (`DEEP_RESEARCH_PLANNER_INSTRUCTIONS` in
`src/providers.js`), character for character, including the leading
newline of the template literal. -/
def DEEP_RESEARCH_PLANNER_INSTRUCTIONS : String :=
  "\nYou will be given a research task by a user. Your job is to produce a set of
instructions for a researcher that will complete the task. Do NOT complete the
task yourself, just provide instructions on how to complete it.

GUIDELINES:
1. **Maximize Specificity and Detail**
- Include all known user preferences and explicitly list key attributes or
  dimensions to consider.
- It is of utmost importance that all details from the user are included in
  the instructions.

2. **Fill in Unstated But Necessary Dimensions as Open-Ended**
- If certain attributes are essential for a meaningful output but the user
  has not provided them, explicitly state that they are open-ended or default
  to no specific constraint.

3. **Avoid Unwarranted Assumptions**
- If the user has not provided a particular detail, do not invent one.
- Instead, state the lack of specification and guide the researcher to treat
  it as flexible or accept all possible options.

4. **Use the First Person**
- Phrase the request from the perspective of the user.

5. **Tables**
- If you determine that including a table will help illustrate, organize, or
  enhance the information in the research output, you must explicitly request
  that the researcher provide them (examples: product comparison, project
  tracking, budget planning, competitor analysis).

6. **Headers and Formatting**
- Include the expected output format in the prompt.
- If the user is asking for content that would be best returned in a
  structured format (e.g. a report, plan, etc.), ask the researcher to format
  as a report with the appropriate headers and formatting that ensures clarity
  and structure.

7. **Language**
- If the user input is in a language other than English, tell the researcher
  to respond in this language, unless the user query explicitly asks for the
  response in a different language.

8. **Sources**
- If specific sources should be prioritized, specify them in the prompt.
- For product and travel research, prefer linking directly to official or
  primary websites.
- For academic or scientific queries, prefer linking directly to the original
  paper or journal publication.
- If the query is in a specific language, prioritize sources published in that
  language."

/-- One element of the `tools` array of the deep-research payload. -/
structure OpenAITool where
  type : String
  container : Option String
deriving DecidableEq, Repr

/-- The fixed tool declaration of the deep-research payload: web search
plus a code-interpreter container of type `auto`. -/
def drTools : List OpenAITool :=
  [⟨"web_search_preview", none⟩, ⟨"code_interpreter", some "auto"⟩]

/-- Role rendering of the deep-research transcript flattening:
`m?.role === "assistant" ? "Assistant" : m?.role === "system" ? "System" :
"User"`. -/
def drRole (r : Option String) : String :=
  if r = some "assistant" then "Assistant"
  else if r = some "system" then "System"
  else "User"

/-- The optional `System: <system>` part, pushed when `system` is truthy. -/
def drSystemParts (system : Option String) : List String :=
  match system with
  | some s => if s = "" then [] else ["System: " ++ s]
  | none => []

/-- The flattened transcript parts: each kept turn rendered as
`"<Role>: <content>"`, empty or non-string contents dropped. -/
def drHistoryParts (history : List Turn) : List String :=
  history.filterMap fun m =>
    match m.content with
    | some c => if c = "" then none else some (drRole m.role ++ ": " ++ c)
    | none => none

/-- The single flattened input string of the deep-research call:
planner block, optional system instruction, transcript, final prompt,
joined with blank-line separators (`parts.join("\n\n")`). -/
def drInput (prompt : String) (system : Option String)
    (history : List Turn) : String :=
  jsJoin "\n\n"
    (["System: " ++ DEEP_RESEARCH_PLANNER_INSTRUCTIONS] ++
      drSystemParts system ++ drHistoryParts history ++
      ["User: " ++ prompt])

/-- Payload of `client.responses.create` in the deep-research branch. -/
structure ResponsesPayload where
  model : String
  input : String
  tools : List OpenAITool
deriving DecidableEq, Repr

/-- Which vendor call `askOpenAI` makes, with its payload. -/
inductive OpenAICall where
  | responses (payload : ResponsesPayload)
  | chat (payload : OpenAIPayload)
deriving DecidableEq, Repr

/-- Request-building of `askOpenAI` (the `useModelConfig` merge disabled):
the deep-research naming pattern selects the Responses API with the
flattened input and fixed tools, everything else the chat-completions
payload over the role-tagged message list. -/
def askOpenAICall (prompt : String) (system : Option String)
    (model : String) (temperature : Option Rat)
    (maxTokens maxCompletionTokens : Option Nat) (history : List Turn) :
    OpenAICall :=
  if usesResponsesApi model then
    .responses
      { model := model
        input := drInput prompt system history
        tools := drTools }
  else
    .chat (openaiChatPayload model (openaiMessages system history prompt)
      temperature maxTokens maxCompletionTokens)

/-- One item of the structured `output` list of a Responses API result:
`text` is its `text` field when that is a string, `content` its `content`
field when that is an array, each content element represented by its own
optional `text` field. -/
structure ResponseItem where
  text : Option String
  content : Option (List (Option String))
deriving DecidableEq, Repr

/-- A Responses API result: the convenience `output_text` field and the
structured `output` list, each `none` when absent or of the wrong type. -/
structure ResponsesResult where
  output_text : Option String
  output : Option (List ResponseItem)
deriving DecidableEq, Repr

/-- One item's contribution to the stitched-together text: its `text`
field when that is a string, else the concatenated `text` fields of its
content array (missing ones contributing `""`), else nothing. -/
def itemText (item : ResponseItem) : String :=
  match item.text with
  | some t => t
  | none =>
    match item.content with
    | some cs => jsJoin "" (cs.map fun c => c.getD "")
    | none => ""

/-- The fallback concatenation over the structured output list. -/
def responsesCombined (r : ResponsesResult) : String :=
  jsJoin "" ((r.output.getD []).map itemText)

/-- Response extraction of the deep-research branch: prefer `output_text`
when it is a non-empty string, otherwise stitch the output items. -/
def responsesText (r : ResponsesResult) : String :=
  match r.output_text with
  | some s => if s.length > 0 then s else responsesCombined r
  | none => responsesCombined r

/-- A 100,001-character attachment content (one over the cap), used to
exercise the truncation path on a concrete request. -/
def bigQ : String :=
  String.mk (List.replicate 100001 'q')

/-- A concrete attachment whose content is one character over the cap. -/
def attQ : Attachment :=
  { name := some "f", type := some "t", size := 0, content := some bigQ }

/-- A concrete `/api/ask` request carrying the over-cap attachment. -/
def reqQ : AskRequest :=
  { prompt := some "p", system := none, providers := fun _ => true,
    models := fun _ => none, temperature := none, maxTokens := none,
    timeoutMs := none, history := none, histories := fun _ => none,
    modelId := none, attachments := some [attQ] }

/-- The part of the built prompt before the truncated content on the
request `reqQ`. -/
def preQ : String := "Attachments:\n\n[1] f (t, 0 bytes) [truncated]:\n"

/-- The part of the built prompt after the truncated content on the
request `reqQ`. -/
def postQ : String := "\n\n---\n\np"

lemma attemptLoop_of_ok (results : Nat → Outcome) (attempts : Nat)
    (fuel n : Nat) (h : (results n).isOk = true) :
    attemptLoop results attempts fuel n = (results n, n + 1) := by
  cases fuel with
  | zero => rfl
  | succ fuel => simp [attemptLoop, h]

lemma attemptLoop_succeeds (results : Nat → Outcome) (attempts k : Nat)
    (hk : k < attempts)
    (hfail : ∀ i, i < k → (results i).isOk = false)
    (hok : (results k).isOk = true) :
    ∀ fuel n, n ≤ k → k - n ≤ fuel →
      attemptLoop results attempts fuel n = (results k, k + 1) := by
  intro fuel
  induction fuel with
  | zero =>
    intro n hn hle
    have hnk : n = k := le_antisymm hn (by omega)
    subst hnk
    rfl
  | succ fuel ih =>
    intro n hn hle
    rcases eq_or_lt_of_le hn with hnk | hnk
    · subst hnk
      simp [attemptLoop, hok]
    · have hfn := hfail n hnk
      have hstop : ¬ (n + 1 ≥ attempts) := by omega
      simp only [attemptLoop, hfn, if_false, Bool.false_eq_true, hstop]
      exact ih (n + 1) (by omega) (by omega)

lemma attemptLoop_all_fail (results : Nat → Outcome) (attempts : Nat)
    (hfail : ∀ i, i < attempts → (results i).isOk = false) :
    ∀ fuel n, n < attempts → attempts - (n + 1) ≤ fuel →
      attemptLoop results attempts fuel n =
        (results (attempts - 1), attempts) := by
  intro fuel
  induction fuel with
  | zero =>
    intro n hn hle
    have hnk : n = attempts - 1 := by omega
    have hcount : n + 1 = attempts := by omega
    subst hnk
    simp [attemptLoop, hcount]
  | succ fuel ih =>
    intro n hn hle
    have hfn := hfail n hn
    by_cases hstop : n + 1 ≥ attempts
    · have hnk : n = attempts - 1 := by omega
      have hcount : n + 1 = attempts := by omega
      subst hnk
      simp [attemptLoop, hfn, hstop, hcount]
    · simp only [attemptLoop, hfn, if_false, Bool.false_eq_true, hstop]
      exact ih (n + 1) (by omega) (by omega)

/-- C1: for every attempt-outcome oracle, attempt ceiling `attempts ≥ 1`,
and failure count `k`, the retry supervisor `runWithRetries` (a) returns
immediately with attempt 0's outcome when it is ok, making exactly one
attempt; (b) when the first `k` attempts fail and attempt `k` (0-indexed,
i.e. the `k+1`-st attempt, `k < attempts`) is ok, returns that ok outcome
having made exactly `k + 1` attempts; (c) when every attempt up to the
ceiling fails, makes exactly `attempts` attempts and returns the last
failure.  Per-attempt outcomes are the settled results of
`withTimeout(taskFactory(), perAttemptTimeoutMs, label)`, so every attempt
runs through the timeout wrapper. -/
theorem runWithRetries_spec (results : Nat → Outcome) (attempts k : Nat)
    (hceil : 1 ≤ attempts) :
    ((results 0).isOk = true →
      runWithRetries results attempts = (results 0, 1)) ∧
    (k < attempts → (∀ i, i < k → (results i).isOk = false) →
      (results k).isOk = true →
      runWithRetries results attempts = (results k, k + 1)) ∧
    ((∀ i, i < attempts → (results i).isOk = false) →
      runWithRetries results attempts =
        (results (attempts - 1), attempts)) := by
  refine ⟨?_, ?_, ?_⟩
  · intro h0
    exact attemptLoop_of_ok results attempts attempts 0 h0
  · intro hk hfail hok
    exact attemptLoop_succeeds results attempts k hk hfail hok attempts 0
      (by omega) (by omega)
  · intro hfail
    exact attemptLoop_all_fail results attempts hfail attempts 0
      (by omega) (by omega)

/-- Witness for C1 at a concrete oracle: attempts 0 and 1 fail, attempt 2
succeeds, ceiling 3; and a second oracle that always fails. -/
theorem runWithRetries_spec_witness :
    runWithRetries
        (fun n => if n < 2 then .err "boom" else .ok "fine") 3 =
      (.ok "fine", 3) ∧
    runWithRetries (fun _ => Outcome.err "down") 3 =
      (.err "down", 3) := by
  constructor
  · have h := (runWithRetries_spec
      (fun n => if n < 2 then .err "boom" else .ok "fine") 3 2
      (by decide)).2.1 (by decide)
      (by decide) (by decide)
    simpa using h
  · have h := (runWithRetries_spec (fun _ => Outcome.err "down") 3 0
      (by decide)).2.2 (fun i _ => by decide)
    simpa using h

/-- C2: for every positive timeout `T` and label, the timeout wrapper
settles with exactly one outcome and never rejects (it is a total function
into `Outcome`): an operation settling before the timer has its success or
failure mirrored as `{ok:true, value}` / `{ok:false, error}`; if the timer
fires first — in particular when the operation never settles — the outcome
is `{ok:false}` with message `label ++ " timed out after " ++ T ++ "ms"`,
and a late settlement of the abandoned operation (any result at time
`t ≥ T`) is discarded: the observed outcome is the same timeout error
whatever the late result would have been. -/
theorem withTimeout_spec (T : Nat) (label : String) (hT : 0 < T) :
    (∀ v t, t < T →
      withTimeout (some (t, .value v)) T label = .ok v) ∧
    (∀ e t, t < T →
      withTimeout (some (t, .error e)) T label = .err e) ∧
    withTimeout none T label = .err (timeoutMessage label T) ∧
    (∀ t r, T ≤ t →
      withTimeout (some (t, r)) T label = .err (timeoutMessage label T)) := by
  refine ⟨?_, ?_, rfl, ?_⟩
  · intro v t ht
    simp [withTimeout, ht]
  · intro e t ht
    simp [withTimeout, ht]
  · intro t r ht
    have hlt : ¬ t < T := by omega
    simp [withTimeout, hlt]

/-- Witness for C2 at `T = 5`, `label = "OpenAI"`: a success at time 3 is
mirrored, a hung operation times out with the labelled message, and a late
error at time 7 is discarded in favour of the timeout message. -/
theorem withTimeout_spec_witness :
    withTimeout (some (3, .value "hello")) 5 "OpenAI" = .ok "hello" ∧
    withTimeout none 5 "OpenAI" = .err "OpenAI timed out after 5ms" ∧
    withTimeout (some (7, .error "late")) 5 "OpenAI" =
      .err "OpenAI timed out after 5ms" := by
  have h := withTimeout_spec 5 "OpenAI" (by decide)
  refine ⟨h.1 "hello" 3 (by decide), ?_, ?_⟩
  · have h2 := h.2.2.1
    simpa [timeoutMessage] using h2
  · have h3 := h.2.2.2 7 (.error "late") (by decide)
    simpa [timeoutMessage] using h3

lemma openaiHistoryMsgs_content_ne (history : List Turn) (m : ChatMsg)
    (hm : m ∈ openaiHistoryMsgs history) : m.content ≠ "" := by
  rcases List.mem_filterMap.mp hm with ⟨t, _, ht⟩
  rcases h : t.content with _ | c
  · rw [h] at ht; simp at ht
  · rw [h] at ht
    by_cases hc : c = "" <;> simp [hc] at ht
    simp [← ht, hc]

lemma claudeHistoryMsgs_content_ne (history : List Turn) (m : ChatMsg)
    (hm : m ∈ claudeHistoryMsgs history) : m.content ≠ "" := by
  rcases List.mem_filterMap.mp hm with ⟨t, _, ht⟩
  rcases h : t.content with _ | c
  · rw [h] at ht; simp at ht
  · rw [h] at ht
    by_cases hc : c = "" <;> simp [hc] at ht
    simp [← ht, hc]

lemma geminiHistoryContents_content_ne (history : List Turn)
    (m : GeminiContent) (hm : m ∈ geminiHistoryContents history) :
    ∀ t ∈ m.parts, t ≠ "" := by
  rcases List.mem_filterMap.mp hm with ⟨u, _, hu⟩
  rcases h : u.content with _ | c
  · rw [h] at hu; simp at hu
  · rw [h] at hu
    by_cases hc : c = "" <;> simp [hc] at hu
    intro t htm
    rw [← hu] at htm
    simp at htm
    simp [htm, hc]

/-- C9: for every transcript passed to any of the three adapters, turns
with empty or non-string content are dropped: no message in the list sent
to the vendor has empty content (for Gemini, no part has empty text), and
the final element of each list is the user prompt. -/
theorem adapters_drop_empty_turns (system : Option String)
    (history : List Turn) (prompt : String) (hp : prompt ≠ "") :
    ((∀ m ∈ openaiMessages system history prompt, m.content ≠ "") ∧
      (openaiMessages system history prompt).getLast? =
        some ⟨"user", prompt⟩) ∧
    ((∀ m ∈ claudeMessages history prompt, m.content ≠ "") ∧
      (claudeMessages history prompt).getLast? = some ⟨"user", prompt⟩) ∧
    ((∀ m ∈ geminiContents history prompt, ∀ t ∈ m.parts, t ≠ "") ∧
      (geminiContents history prompt).getLast? =
        some ⟨"user", [prompt]⟩) := by
  refine ⟨⟨?_, ?_⟩, ⟨?_, ?_⟩, ⟨?_, ?_⟩⟩
  · intro m hm
    simp only [openaiMessages, List.mem_append, List.mem_singleton] at hm
    rcases hm with (hm | hm) | hm
    · rcases system with _ | s
      · simp [openaiSystemMsgs] at hm
      · by_cases hs : s = "" <;> simp [openaiSystemMsgs, hs] at hm
        simp [hm, hs]
    · exact openaiHistoryMsgs_content_ne history m hm
    · simp [hm, hp]
  · show ((openaiSystemMsgs system ++ openaiHistoryMsgs history) ++
      [(⟨"user", prompt⟩ : ChatMsg)]).getLast? = _
    exact List.getLast?_concat _
  · intro m hm
    simp only [claudeMessages, List.mem_append, List.mem_singleton] at hm
    rcases hm with hm | hm
    · exact claudeHistoryMsgs_content_ne history m hm
    · simp [hm, hp]
  · exact List.getLast?_concat _
  · intro m hm
    simp only [geminiContents, List.mem_append, List.mem_singleton] at hm
    rcases hm with hm | hm
    · exact geminiHistoryContents_content_ne history m hm
    · intro t htm
      rw [hm] at htm
      simp at htm
      simp [htm, hp]
  · exact List.getLast?_concat _

/-- Witness for C9: a transcript with an empty-content turn, a non-string
content turn and a real turn, sent to all three builders. -/
theorem adapters_drop_empty_turns_witness :
    (∀ m ∈ openaiMessages (some "sys")
      [⟨some "user", some ""⟩, ⟨some "assistant", none⟩,
        ⟨some "user", some "hi"⟩] "go", m.content ≠ "") ∧
    (claudeMessages [⟨some "user", some ""⟩] "go").getLast? =
      some ⟨"user", "go"⟩ := by
  have h := adapters_drop_empty_turns (some "sys")
    [⟨some "user", some ""⟩, ⟨some "assistant", none⟩,
      ⟨some "user", some "hi"⟩] "go" (by decide)
  have h2 := adapters_drop_empty_turns (some "sys")
    [⟨some "user", some ""⟩] "go" (by decide)
  exact ⟨h.1.1, h2.2.1.2⟩

/-- C3: the history resolver is total (it always returns a list — never a
null) and applies the four-step precedence: (1) a provider-keyed entry wins
outright, for every `modelId`; (2) otherwise a string `modelId` whose entry
is a sequence wins; (3) otherwise, if any of `model1`, `model2`, `model3`
hold sequences, their concatenation in that fixed order is returned (absent
slots contributing nothing); (4) otherwise the legacy shared history, or
`[]` when it is absent. -/
theorem pickHist_spec (histories : String → Option (List Turn))
    (modelId : Option String) (history : Option (List Turn))
    (providerKey : String) :
    (∀ l, histories providerKey = some l →
      pickHist histories modelId history providerKey = l) ∧
    (∀ mid l, histories providerKey = none → modelId = some mid →
      histories mid = some l →
      pickHist histories modelId history providerKey = l) ∧
    (histories providerKey = none →
      (∀ mid, modelId = some mid → histories mid = none) →
      ((histories "model1").isSome ∨ (histories "model2").isSome ∨
        (histories "model3").isSome) →
      pickHist histories modelId history providerKey =
        (histories "model1").getD [] ++ (histories "model2").getD [] ++
          (histories "model3").getD []) ∧
    (histories providerKey = none →
      (∀ mid, modelId = some mid → histories mid = none) →
      histories "model1" = none → histories "model2" = none →
      histories "model3" = none →
      pickHist histories modelId history providerKey =
        history.getD []) := by
  refine ⟨?_, ?_, ?_, ?_⟩
  · intro l hl
    simp [pickHist, hl]
  · intro mid l hpk hmid hl
    simp [pickHist, hpk, hmid, hl]
  · intro hpk hmid hleg
    have hcond : ((histories "model1").isSome || (histories "model2").isSome
        || (histories "model3").isSome) = true := by
      rcases hleg with h | h | h <;> simp [h]
    rcases hm : modelId with _ | mid
    · simp [pickHist, hpk, hcond]
    · simp [pickHist, hpk, hmid mid hm, hcond]
  · intro hpk hmid h1 h2 h3
    rcases hm : modelId with _ | mid
    · simp [pickHist, hpk, h1, h2, h3]
    · simp [pickHist, hpk, hmid mid hm, h1, h2, h3]

/-- Witness for C3, mirroring the spec's examples: with
`histories = {openai: [turnA]}` the provider key wins for any `modelId`;
with `histories = {model2: [turnB]}` and `modelId = "model2"` the card
history wins; with only `model1`/`model3` populated their concatenation is
returned; and with nothing populated the legacy history is returned. -/
theorem pickHist_spec_witness :
    pickHist (fun k => if k = "openai" then some [⟨some "user", some "A"⟩]
        else none) (some "model2") none "openai" =
      [⟨some "user", some "A"⟩] ∧
    pickHist (fun k => if k = "model2" then some [⟨some "user", some "B"⟩]
        else none) (some "model2") none "openai" =
      [⟨some "user", some "B"⟩] ∧
    pickHist (fun k => if k = "model1" then some [⟨some "user", some "C"⟩]
        else if k = "model3" then some [⟨some "user", some "D"⟩]
        else none) (some "model2") none "openai" =
      [⟨some "user", some "C"⟩, ⟨some "user", some "D"⟩] ∧
    pickHist (fun _ => none) none (some [⟨some "user", some "E"⟩])
      "openai" = [⟨some "user", some "E"⟩] := by
  refine ⟨?_, ?_, ?_, ?_⟩
  · exact (pickHist_spec _ (some "model2") none "openai").1
      [⟨some "user", some "A"⟩] (by decide)
  · exact (pickHist_spec _ (some "model2") none "openai").2.1 "model2"
      [⟨some "user", some "B"⟩] (by decide) rfl (by decide)
  · have h := (pickHist_spec
      (fun k => if k = "model1" then some [⟨some "user", some "C"⟩]
        else if k = "model3" then some [⟨some "user", some "D"⟩]
        else none) (some "model2") none "openai").2.2.1
      (by decide) (by intro mid hm; cases hm; decide) (by left; decide)
    simpa using h
  · exact (pickHist_spec (fun _ => none) none
      (some [⟨some "user", some "E"⟩]) "openai").2.2.2 rfl
      (by intro mid hm; cases hm) rfl rfl rfl

/-- C4: for every valid `/api/ask` request, a requested provider whose
credential is not configured gets an aggregate entry with `ok = false`, the
provider-specific missing-credential error naming the environment variable,
no text, and `latencyMs = 0`; and no job is submitted for it, so no
network attempt and no retry happens. -/
theorem missing_credential_outcome (req : AskRequest)
    (hasKey : Prov → Bool) (attemptResults : Prov → Nat → Outcome)
    (latency : Prov → Nat) (resp : AskResponse) (p : Prov)
    (hresp : apiAsk req hasKey attemptResults latency = some resp)
    (hreq : req.providers p = true) (hkey : hasKey p = false) :
    resp.results p = some
      { provider := provKey p
        model := (req.models p).getD (defaultModel p)
        ok := false
        text := none
        error := some (missingKeyError p)
        latencyMs := 0 } ∧
    resp.jobs p = false := by
  by_cases hval : validPrompt req.prompt = true
  · rw [apiAsk, if_pos hval] at hresp
    cases hresp
    constructor
    · simp [hkey, hreq]
    · simp [hkey]
  · rw [apiAsk, if_neg hval] at hresp
    cases hresp

/-- Witness for C4: a concrete request asking for Claude with no Anthropic
credential configured. -/
theorem missing_credential_outcome_witness :
    ∃ resp, apiAsk
      { prompt := some "hi", system := none,
        providers := fun p => p = Prov.claude,
        models := fun _ => none, temperature := none, maxTokens := none,
        timeoutMs := none, history := none, histories := fun _ => none,
        modelId := none, attachments := none }
      (fun _ => false) (fun _ _ => Outcome.err "unreached") (fun _ => 0) =
        some resp ∧
    resp.results Prov.claude = some
      { provider := "claude", model := "claude-3-5-sonnet-latest",
        ok := false, text := none,
        error := some "Missing ANTHROPIC_API_KEY", latencyMs := 0 } ∧
    resp.jobs Prov.claude = false := by
  have hsome : ∃ resp, apiAsk
      { prompt := some "hi", system := none,
        providers := fun p => p = Prov.claude,
        models := fun _ => none, temperature := none, maxTokens := none,
        timeoutMs := none, history := none, histories := fun _ => none,
        modelId := none, attachments := none }
      (fun _ => false) (fun _ _ => Outcome.err "unreached") (fun _ => 0) =
        some resp := by
    rw [apiAsk, if_pos (by decide)]
    exact ⟨_, rfl⟩
  obtain ⟨resp, hr⟩ := hsome
  have h := missing_credential_outcome _ _ _ _ resp Prov.claude hr
    (by decide) rfl
  exact ⟨resp, hr, by simpa [provKey, defaultModel, missingKeyError]
    using h.1, h.2⟩

/-- C5: for every valid `/api/ask` request, the aggregate has an entry
exactly for the requested providers — in particular it is the empty mapping
when no provider is requested — and every entry is a settled outcome (the
handler joins all submitted jobs before responding, so the response is
total on its keys). -/
theorem aggregate_keys_requested (req : AskRequest) (hasKey : Prov → Bool)
    (attemptResults : Prov → Nat → Outcome) (latency : Prov → Nat)
    (resp : AskResponse)
    (hval : validPrompt req.prompt = true)
    (hresp : apiAsk req hasKey attemptResults latency = some resp) :
    (∀ p, (resp.results p).isSome = true ↔ req.providers p = true) ∧
    ((∀ p, req.providers p = false) → ∀ p, resp.results p = none) := by
  rw [apiAsk, if_pos hval] at hresp
  cases hresp
  constructor
  · intro p
    cases hr : req.providers p <;> cases hk : hasKey p <;> simp [hr, hk]
  · intro hnone p
    simp [hnone p]

/-- Witness for C5: with a valid prompt and no providers requested, the
aggregate is the empty mapping. -/
theorem aggregate_keys_requested_witness :
    ∃ resp, apiAsk
      { prompt := some "hi", system := none, providers := fun _ => false,
        models := fun _ => none, temperature := none, maxTokens := none,
        timeoutMs := none, history := none, histories := fun _ => none,
        modelId := none, attachments := none }
      (fun _ => true) (fun _ _ => Outcome.ok "text") (fun _ => 42) =
        some resp ∧
    ∀ p, resp.results p = none := by
  have hsome : ∃ resp, apiAsk
      { prompt := some "hi", system := none, providers := fun _ => false,
        models := fun _ => none, temperature := none, maxTokens := none,
        timeoutMs := none, history := none, histories := fun _ => none,
        modelId := none, attachments := none }
      (fun _ => true) (fun _ _ => Outcome.ok "text") (fun _ => 42) =
        some resp := by
    rw [apiAsk, if_pos (by decide)]
    exact ⟨_, rfl⟩
  obtain ⟨resp, hr⟩ := hsome
  exact ⟨resp, hr,
    (aggregate_keys_requested _ _ _ _ resp (by decide) hr).2
      (fun _ => rfl)⟩

/-- C7: the chat-completions payload of the OpenAI adapter omits
`temperature` entirely and carries the output-length limit as
`max_completion_tokens = mct ?? mt` when the model matches the newer
family's name pattern (`/gpt-5/i` or `/-2025-/`); otherwise it carries the
given temperature whenever one is present (a number) and the output-length
limit as `max_tokens = mt ?? mct`. -/
theorem openaiChatPayload_family_switch (model : String)
    (messages : List ChatMsg) (temperature : Option Rat)
    (mt mct : Option Nat) :
    (openaiChatPayload model messages temperature mt mct).temperature =
      (if isGpt5 model then none else temperature) ∧
    (openaiChatPayload model messages temperature mt
        mct).max_completion_tokens =
      (if isGpt5 model then mct <|> mt else none) ∧
    (openaiChatPayload model messages temperature mt mct).max_tokens =
      (if isGpt5 model then none else mt <|> mct) := by
  refine ⟨?_, ?_, ?_⟩ <;> cases hg : isGpt5 model
  · cases temperature <;> simp [openaiChatPayload, hg]
  · cases temperature <;> simp [openaiChatPayload, hg]
  · simp [openaiChatPayload, hg]
  · cases mct <;> cases mt <;> simp [openaiChatPayload, hg]
  · cases mt <;> cases mct <;> simp [openaiChatPayload, hg]
  · simp [openaiChatPayload, hg]

/-- C8: when the model identifier matches the deep-research naming
pattern, the OpenAI adapter issues the Responses API call whose input is
the single flattened string — planner block, optional system instruction,
transcript turns rendered `"<Role>: <content>"`, final prompt, joined by
blank lines — with the fixed web-search plus code-execution tool
declaration; the temperature and token-limit arguments are ignored in this
mode (the call is the same for all of them); and response extraction
prefers a non-empty `output_text` string, otherwise concatenates the
output items' text fragments in order. -/
theorem deep_research_call_shape (prompt : String)
    (system : Option String) (model : String) (temperature : Option Rat)
    (mt mct : Option Nat) (history : List Turn)
    (h : usesResponsesApi model = true) :
    askOpenAICall prompt system model temperature mt mct history =
      .responses
        { model := model
          input := jsJoin "\n\n"
            (["System: " ++ DEEP_RESEARCH_PLANNER_INSTRUCTIONS] ++
              drSystemParts system ++ drHistoryParts history ++
              ["User: " ++ prompt])
          tools := [⟨"web_search_preview", none⟩,
            ⟨"code_interpreter", some "auto"⟩] } ∧
    (∀ t2 mt2 mct2,
      askOpenAICall prompt system model t2 mt2 mct2 history =
        askOpenAICall prompt system model temperature mt mct history) ∧
    (∀ (r : ResponsesResult) (s : String), r.output_text = some s →
      s ≠ "" → responsesText r = s) ∧
    (∀ r : ResponsesResult,
      r.output_text = none ∨ r.output_text = some "" →
      responsesText r = jsJoin "" ((r.output.getD []).map itemText)) := by
  refine ⟨?_, ?_, ?_, ?_⟩
  · simp [askOpenAICall, h, drInput, drTools]
  · intro t2 mt2 mct2
    simp [askOpenAICall, h]
  · intro r s hs hne
    have hpos : 0 < s.length := by
      cases s with
      | mk data =>
        cases data with
        | nil => exact absurd rfl hne
        | cons c cs => simp [String.length]
    simp [responsesText, hs, hpos]
  · intro r hr
    rcases hr with hr | hr <;>
      simp [responsesText, responsesCombined, hr, String.length]

/-- Witness for C8 at the model `o4-mini-deep-research`: the sampling
arguments do not change the call, a non-empty `output_text` wins, and
otherwise the fragments are stitched in order. -/
theorem deep_research_call_shape_witness :
    askOpenAICall "go" none "o4-mini-deep-research" (some 1) (some 7)
        none [] =
      askOpenAICall "go" none "o4-mini-deep-research" none none none [] ∧
    responsesText ⟨some "final", some [⟨some "ignored", none⟩]⟩ =
      "final" ∧
    responsesText ⟨none, some [⟨some "a", none⟩,
      ⟨none, some [some "b", none, some "c"]⟩]⟩ = "abc" := by
  have h := deep_research_call_shape "go" none "o4-mini-deep-research"
    none none none [] (by decide)
  refine ⟨h.2.1 (some 1) (some 7) none, ?_, ?_⟩
  · exact h.2.2.1 ⟨some "final", some [⟨some "ignored", none⟩]⟩ "final"
      rfl (by decide)
  · have h4 := h.2.2.2 ⟨none, some [⟨some "a", none⟩,
      ⟨none, some [some "b", none, some "c"]⟩]⟩ (Or.inl rfl)
    rw [h4]
    decide

lemma bigQ_length : bigQ.length = 100001 := by
  show (String.mk (List.replicate 100001 'q')).length = 100001
  rw [String.length_mk, List.length_replicate]

lemma jsSlice0_bigQ_data :
    (jsSlice0 bigQ MAX_PER).data = List.replicate MAX_PER 'q' := by
  show (List.replicate 100001 'q').take MAX_PER = List.replicate MAX_PER 'q'
  have hmin : min MAX_PER 100001 = MAX_PER := by
    show min 100000 100001 = 100000
    omega
  rw [List.take_replicate, hmin]

lemma infix_of_mem_jsJoin (sep : String) :
    ∀ (l : List String) (x : String), x ∈ l →
      x.data <:+: (jsJoin sep l).data
  | [], x, hx => absurd hx (List.not_mem_nil x)
  | [y], x, hx => by
    simp at hx
    subst hx
    exact List.infix_refl _
  | y :: z :: t, x, hx => by
    rcases List.mem_cons.mp hx with rfl | hx2
    · show x.data <:+: ((x ++ sep) ++ jsJoin sep (z :: t)).data
      rw [String.data_append, String.data_append]
      exact ((List.prefix_append x.data sep.data).trans
        (List.prefix_append _ _)).isInfix
    · have ih := infix_of_mem_jsJoin sep (z :: t) x hx2
      show x.data <:+: ((y ++ sep) ++ jsJoin sep (z :: t)).data
      rw [String.data_append]
      exact ih.trans (List.suffix_append _ _).isInfix

lemma attLine_suffix (i : Nat) (a : Attachment) (c : String)
    (hc : a.content = some c) (hlen : MAX_PER < c.length) :
    (" [truncated]:\n" ++ jsSlice0 c MAX_PER).data <:+ (attLine i a).data := by
  have hnote : attNote a = " [truncated]" := by
    simp [attNote, hc, hlen]
  have hcont : attContent a = jsSlice0 c MAX_PER := by
    simp [attContent, hc, hlen]
  refine ⟨(attHead i a).data, ?_⟩
  rw [attLine, hnote, hcont]
  have hsplit : (" [truncated]:\n").data =
      " [truncated]".data ++ ":\n".data := by decide
  simp [String.data_append, hsplit, List.append_assoc]

lemma truncated_slice_occurs (p : String) (l : List Attachment) (a : Attachment)
    (c : String) (ha : a ∈ l) (hc : a.content = some c)
    (hlen : MAX_PER < c.length) :
    (" [truncated]:\n" ++ jsSlice0 c MAX_PER).data <:+:
      (buildPromptWithAttachments p (some l)).data := by
  cases l with
  | nil => cases ha
  | cons a0 l0 =>
    have hmem : a ∈ ((a0 :: l0).enum.map Prod.snd) := by
      rw [List.enum_map_snd]
      exact ha
    obtain ⟨q, hq, hq2⟩ := List.mem_map.mp hmem
    have hline : attLine q.1 q.2 ∈
        (a0 :: l0).enum.map fun ia => attLine ia.1 ia.2 :=
      List.mem_map.mpr ⟨q, hq, rfl⟩
    have hmem2 : attLine q.1 q.2 ∈
        ["Attachments:"] ++
          ((a0 :: l0).enum.map fun ia => attLine ia.1 ia.2) ++
          ["\n---\n", p] :=
      List.mem_append.mpr (Or.inl (List.mem_append.mpr (Or.inr hline)))
    have hjoin := infix_of_mem_jsJoin "\n" _ _ hmem2
    have hsuf := attLine_suffix q.1 q.2 c (by rw [hq2]; exact hc) hlen
    have hb : buildPromptWithAttachments p (some (a0 :: l0)) =
        jsJoin "\n"
          (["Attachments:"] ++
            ((a0 :: l0).enum.map fun ia => attLine ia.1 ia.2) ++
            ["\n---\n", p]) := rfl
    rw [hb]
    exact hsuf.isInfix.trans hjoin

lemma buildQ_data :
    (buildPromptWithAttachments "p" (some [attQ])).data =
      preQ.data ++ (List.replicate MAX_PER 'q' ++ postQ.data) := by
  have hlenQ : MAX_PER < bigQ.length := by
    have h1 : MAX_PER = 100000 := rfl
    rw [bigQ_length]
    omega
  have hnote : attNote attQ = " [truncated]" := by
    simp [attNote, attQ, hlenQ]
  have hcont : attContent attQ = jsSlice0 bigQ MAX_PER := by
    simp [attContent, attQ, hlenQ]
  have hhead : attHead 0 attQ = "\n[1] f (t, 0 bytes)" := by decide
  have h1 : buildPromptWithAttachments "p" (some [attQ]) =
      "Attachments:" ++ "\n" ++ (attLine 0 attQ ++ "\n" ++
        ("\n---\n" ++ "\n" ++ "p")) := rfl
  rw [h1]
  simp only [attLine]
  rw [hnote, hcont, hhead]
  rw [show preQ.data = "Attachments:".data ++ ("\n".data ++
    ("\n[1] f (t, 0 bytes)".data ++ (" [truncated]".data ++ ":\n".data)))
    from by decide]
  rw [show postQ.data = "\n".data ++ ("\n---\n".data ++ ("\n".data ++
    "p".data)) from by decide]
  simp only [String.data_append, jsSlice0_bigQ_data, List.append_assoc]

lemma count_q_buildQ :
    List.count 'q' (buildPromptWithAttachments "p" (some [attQ])).data =
      MAX_PER := by
  rw [buildQ_data, List.count_append, List.count_append,
    List.count_replicate_self]
  have h1 : List.count 'q' preQ.data = 0 := by decide
  have h2 : List.count 'q' postQ.data = 0 := by decide
  rw [h1, h2]
  omega

lemma append_cons_eq_of_not_mem {α : Type} (c : α) :
    ∀ (s P u v : List α), c ∉ s → c ∉ P →
      s ++ c :: u = P ++ c :: v → s = P ∧ u = v := by
  intro s
  induction s with
  | nil =>
    intro P u v _ hP heq
    cases P with
    | nil => simpa using heq
    | cons p ps =>
      simp only [List.nil_append, List.cons_append, List.cons.injEq] at heq
      exact absurd (heq.1 ▸ List.mem_cons_self p ps) hP
  | cons a as ih =>
    intro P u v hs hP heq
    cases P with
    | nil =>
      simp only [List.nil_append, List.cons_append, List.cons.injEq] at heq
      exact absurd (heq.1 ▸ List.mem_cons_self a as) hs
    | cons p ps =>
      simp only [List.cons_append, List.cons.injEq] at heq
      obtain ⟨rfl, heq2⟩ := heq
      have hrec := ih ps u v (fun h => hs (List.mem_cons_of_mem _ h))
        (fun h => hP (List.mem_cons_of_mem _ h)) heq2
      exact ⟨by rw [hrec.1], hrec.2⟩

/-- C6 counterexample: on the concrete request `reqQ`, whose single
attachment's content is 100,001 characters of `q`, the prompt the adapters
receive does not contain the first 100,000 characters followed by the
truncation marker — the marker is placed in the attachment's header line
before the content, so the claimed substring never occurs. -/
theorem attachment_truncation_counterexample :
    ¬ ((jsSlice0 bigQ MAX_PER ++ " [truncated]").data <:+:
      ((builtRequest reqQ Prov.openai).prompt).data) := by
  have hprompt : (builtRequest reqQ Prov.openai).prompt =
      buildPromptWithAttachments "p" (some [attQ]) := rfl
  rw [hprompt]
  intro hinf
  obtain ⟨s, t, heq⟩ := hinf
  rw [buildQ_data, String.data_append, jsSlice0_bigQ_data] at heq
  have hcs : List.count 'q' s = 0 := by
    have hc := congrArg (List.count 'q') heq
    simp only [List.count_append, List.count_replicate_self] at hc
    have h1 : List.count 'q' preQ.data = 0 := by decide
    have h2 : List.count 'q' postQ.data = 0 := by decide
    have h3 : List.count 'q' (" [truncated]".data) = 0 := by decide
    rw [h1, h2, h3] at hc
    omega
  have hnotin_s : 'q' ∉ s := List.count_eq_zero.mp hcs
  have hnotin_pre : 'q' ∉ preQ.data := by decide
  have hrep : List.replicate MAX_PER 'q' =
      'q' :: List.replicate 99999 'q' := by
    rw [show MAX_PER = 99999 + 1 from rfl, List.replicate_succ]
  rw [hrep] at heq
  simp only [List.append_assoc, List.cons_append] at heq
  obtain ⟨_, huv⟩ := append_cons_eq_of_not_mem 'q' s preQ.data _ _
    hnotin_s hnotin_pre heq
  have huv2 : " [truncated]".data ++ t = postQ.data :=
    List.append_cancel_left huv
  have hM : (" [truncated]").data = ' ' :: ("[truncated]").data := by decide
  rw [hM, List.cons_append] at huv2
  have hhead := congrArg List.head? huv2
  have hpost : List.head? postQ.data = some '\x0a' := by decide
  rw [hpost, List.head?_cons] at hhead
  simp at hhead

/-- C6 (amended): the attachment-inlining step puts the truncation marker
in the attachment's header line directly before (not after) the truncated
content: for every attachment whose content exceeds 100,000 characters the
prompt the adapters receive contains the marker followed by the first
100,000 characters of that content; on the concrete over-cap request
`reqQ` the full content does not occur; and the inlining is applied once
before any per-provider request is built, so every provider's adapter
receives the identical augmented prompt. -/
theorem attachment_truncation_amended :
    (∀ (p : String) (l : List Attachment) (a : Attachment) (c : String),
      a ∈ l → a.content = some c → MAX_PER < c.length →
      (" [truncated]:\n" ++ jsSlice0 c MAX_PER).data <:+:
        (buildPromptWithAttachments p (some l)).data) ∧
    ¬ (bigQ.data <:+: ((builtRequest reqQ Prov.openai).prompt).data) ∧
    (∀ (req : AskRequest) (p₁ p₂ : Prov),
      (builtRequest req p₁).prompt = (builtRequest req p₂).prompt ∧
      (builtRequest req p₁).prompt =
        buildPromptWithAttachments (req.prompt.getD "") req.attachments) := by
  refine ⟨truncated_slice_occurs, ?_, fun req p₁ p₂ => ⟨rfl, rfl⟩⟩
  have hprompt : (builtRequest reqQ Prov.openai).prompt =
      buildPromptWithAttachments "p" (some [attQ]) := rfl
  rw [hprompt]
  intro hinf
  have hcount := hinf.sublist.count_le 'q'
  rw [count_q_buildQ] at hcount
  have hbig : List.count 'q' bigQ.data = 100001 := by
    show List.count 'q' (List.replicate 100001 'q') = 100001
    rw [List.count_replicate_self]
  rw [hbig] at hcount
  have hmp : MAX_PER = 100000 := rfl
  omega

/-- Witness for C6: the amended containment applied to the concrete
over-cap request, and the per-provider prompts of that request coincide. -/
theorem attachment_truncation_amended_witness :
    ((" [truncated]:\n" ++ jsSlice0 bigQ MAX_PER).data <:+:
      (buildPromptWithAttachments "p" (some [attQ])).data) ∧
    (builtRequest reqQ Prov.openai).prompt =
      (builtRequest reqQ Prov.claude).prompt := by
  have hlenQ : MAX_PER < bigQ.length := by
    have h1 : MAX_PER = 100000 := rfl
    rw [bigQ_length]
    omega
  exact ⟨attachment_truncation_amended.1 "p" [attQ] attQ bigQ
    (List.mem_singleton.mpr rfl) rfl hlenQ,
    (attachment_truncation_amended.2.2 reqQ Prov.openai Prov.claude).1⟩

/-- C10: both the Claude adapter and the Gemini adapter label every
non-assistant history turn — in particular every turn whose role is
`system` — as the user (`"user"` role); only the OpenAI chat-completion
adapter preserves the `system` role of a history turn. -/
theorem system_role_mapping :
    (∀ r, r ≠ some "assistant" →
      claudeRole r = "user" ∧ geminiRole r = "user") ∧
    claudeRole (some "system") = "user" ∧
    geminiRole (some "system") = "user" ∧
    openaiRole (some "system") = "system" := by
  refine ⟨?_, rfl, rfl, rfl⟩
  intro r hr
  simp [claudeRole, geminiRole, hr]

/-- Witness for C10: the mapping at the concrete role `system` and at a
non-string role. -/
theorem system_role_mapping_witness :
    (claudeRole (some "system") = "user" ∧
      geminiRole (some "system") = "user") ∧
    (claudeRole none = "user" ∧ geminiRole none = "user") :=
  ⟨system_role_mapping.1 (some "system") (by decide),
    system_role_mapping.1 none (by decide)⟩

end ManyAnswers
